import Mathlib

/-
Verification of the per-connection HTTP/1.1 server in this repository
(src/unnamed/part_000, main module).  Byte strings are modelled as
`List Nat` (one entry per byte, latin1).  The JS `Buffer` backing a
`DynBuf` is a `List Nat` whose length is the capacity; the occupied
region is the prefix of length `DynBuf.length`.  Helpers that the
repository references but does not define (`fieldGet`, `parseDec`,
`splitLines`, `parseHTTPRequestLine`, `validateHeader`) are modelled
from the spec and marked as such in their doc comments.
-/

/-- Bytes of a latin1/ASCII string, one `Nat` per character. -/
def strBytes (s : String) : List Nat := s.data.map Char.toNat

/-- A dynamic-sized buffer (source type `DynBuf`): backing region plus
occupied length. -/
structure DynBuf where
  data : List Nat
  length : Nat
deriving DecidableEq, Repr

/-- The occupied region of a `DynBuf`: the first `length` bytes of the
backing region. -/
def occupied (b : DynBuf) : List Nat := b.data.take b.length

/-- The capacity-doubling loop of `bufPush` (`while (cap < newLen) cap *= 2`),
with explicit fuel; fuel `n` always suffices for a positive starting
capacity since doubling reaches `n` within `n` iterations. -/
def growCapFuel : Nat → Nat → Nat → Nat
  | 0, cap, _ => cap
  | fuel + 1, cap, n => if cap < n then growCapFuel fuel (cap * 2) n else cap

/-- Final capacity chosen by `bufPush` when growing to hold `n` bytes. -/
def growCap (cap n : Nat) : Nat := growCapFuel n cap n

/-- The backing region after the growth step of `bufPush`: unchanged if it
already fits `newLen` bytes, otherwise reallocated at the doubled capacity
(`Buffer.alloc` zero-fills; the old bytes are copied to the front). -/
def growData (buf : DynBuf) (newLen : Nat) : List Nat :=
  if buf.data.length < newLen then
    buf.data ++ List.replicate (growCap (max buf.data.length 32) newLen - buf.data.length) 0
  else
    buf.data

/-- Writing `src` into `target` starting at offset `off`
(`Buffer.copy(target, off, 0)` when the target is long enough). -/
def writeAt (target : List Nat) (off : Nat) (src : List Nat) : List Nat :=
  target.take off ++ src ++ target.drop (off + src.length)

/-- Source `bufPush`: append `d` after the occupied region, growing the
backing region by capacity doubling (floor 32) when needed. -/
def bufPush (buf : DynBuf) (d : List Nat) : DynBuf :=
  { data := writeAt (growData buf (buf.length + d.length)) buf.length d,
    length := buf.length + d.length }

/-- Source `bufPop`: `copyWithin(0, len, buf.length)` then shrink the
occupied length by `len`.  The bytes of the occupied region from offset
`len` on are moved to the front; the rest of the backing region is
untouched. -/
def bufPop (b : DynBuf) (len : Nat) : DynBuf :=
  { data := (b.data.take b.length).drop len ++
      b.data.drop ((b.data.take b.length).drop len).length,
    length := b.length - len }

/-- Source `kMaxHeaderLen`, the max length of an HTTP header. -/
def kMaxHeaderLen : Nat := 1024 * 8

/-- A parsed HTTP request header (source type `HTTPReq`); all tokens kept
as raw bytes. -/
structure HTTPReq where
  method : List Nat
  uri : List Nat
  version : List Nat
  headers : List (List Nat)
deriving DecidableEq, Repr

/-- Source type `HTTPError`: a protocol violation with a status code. -/
structure HTTPError where
  code : Nat
  message : String
deriving DecidableEq, Repr

/-- Does the byte list start with the header terminator `\r\n\r\n`? -/
def startsWithTerm (l : List Nat) : Bool := decide (l.take 4 = [13, 10, 13, 10])

/-- Index of the first occurrence of `\r\n\r\n` (`Buffer.indexOf`),
`none` when absent. -/
def findTerm : List Nat → Option Nat
  | [] => none
  | b :: rest =>
    if startsWithTerm (b :: rest) then some 0
    else (findTerm rest).map (· + 1)

/-- Modelled from the spec: the repository does not define `splitLines`.
Spec section 4.3: "split the header span into lines on the line
terminator"; one line per CRLF terminator, with "the final line must be
empty" confirming the span ends at the terminator just consumed (any
trailing bytes after the last terminator would not form a line; the
framer only passes spans ending in `\r\n\r\n`). -/
def splitLines : List Nat → List (List Nat)
  | [] => []
  | 13 :: 10 :: rest => [] :: splitLines rest
  | b :: rest =>
    match splitLines rest with
    | [] => []
    | line :: more => (b :: line) :: more

/-- Splitting a line on single spaces (byte 32), separator semantics. -/
def splitSpaces : List Nat → List (List Nat)
  | [] => [[]]
  | 32 :: rest => [] :: splitSpaces rest
  | b :: rest =>
    match splitSpaces rest with
    | [] => [[b]]
    | tok :: more => (b :: tok) :: more

/-- Modelled from the spec: the repository does not define
`parseHTTPRequestLine`.  Spec section 4.3: line 0 is
"METHOD target VERSION (single-space separated, exactly three tokens —
fewer/more tokens is a malformed-request condition)". -/
def parseHTTPRequestLine (line : List Nat) :
    Except HTTPError (List Nat × List Nat × List Nat) :=
  match splitSpaces line with
  | [m, u, v] => .ok (m, u, v)
  | _ => .error ⟨400, "malformed request line"⟩

/-- Modelled from the spec: the repository does not define
`validateHeader`.  Spec section 4.3: each field line is "Name: value",
"validated for a non-empty name and no embedded terminator inside the
name". -/
def validateHeader (h : List Nat) : Bool :=
  let name := h.takeWhile (fun b => b != 58)
  !name.isEmpty && decide (name.length < h.length) &&
    name.all (fun b => b != 13 && b != 10)

/-- Source `parseHTTPReq`: split the span into lines, parse the request
line, validate and collect the field lines (all but the first and the
final empty line); an invalid field is a 400 "bad field" violation. -/
def parseHTTPReq (data : List Nat) : Except HTTPError HTTPReq :=
  let lines := splitLines data
  match parseHTTPRequestLine (lines.headD []) with
  | .error e => .error e
  | .ok (m, u, v) =>
    let hdrLines := (lines.drop 1).dropLast
    if hdrLines.all validateHeader then
      .ok ⟨m, u, v, hdrLines⟩
    else
      .error ⟨400, "bad field"⟩

/-- Source `cutMessage`: look for `\r\n\r\n` in the occupied region;
absent and the occupied length at least `kMaxHeaderLen` is the fatal 413,
absent otherwise signals incomplete (`null`); present, parse the span up
to and including the terminator and pop it from the buffer. -/
def cutMessage (buf : DynBuf) : Except HTTPError (Option (HTTPReq × DynBuf)) :=
  match findTerm (buf.data.take buf.length) with
  | none =>
    if kMaxHeaderLen ≤ buf.length then .error ⟨413, "header is too large"⟩
    else .ok none
  | some idx =>
    match parseHTTPReq ((buf.data.take buf.length).take (idx + 4)) with
    | .error e => .error e
    | .ok msg => .ok (some (msg, bufPop buf (idx + 4)))

/-- ASCII lower-casing of one byte. -/
def lowerByte (b : Nat) : Nat := if 65 ≤ b ∧ b ≤ 90 then b + 32 else b

/-- Dropping leading and trailing spaces of a field value. -/
def trimBytes (l : List Nat) : List Nat :=
  ((l.dropWhile (fun b => b == 32)).reverse.dropWhile (fun b => b == 32)).reverse

/-- Modelled from the spec: the repository does not define `fieldGet`.
Header-field lookup by name over the ordered raw field lines: the first
line whose name (the bytes before the colon), compared ASCII
case-insensitively, equals the key yields its value (the bytes after the
colon, surrounding spaces trimmed). -/
def fieldGet (headers : List (List Nat)) (key : List Nat) : Option (List Nat) :=
  headers.findSome? fun h =>
    let name := h.takeWhile (fun b => b != 58)
    if name.map lowerByte = key.map lowerByte ∧ name.length < h.length then
      some (trimBytes (h.drop (name.length + 1)))
    else
      none

/-- Modelled from the spec: the repository does not define `parseDec`.
Spec section 4.4: the content-length value "parses as a non-negative
integer"; all-digit non-empty decimal, `none` (NaN) otherwise. -/
def parseDec (l : List Nat) : Option Nat :=
  if l ≠ [] ∧ l.all (fun b => decide (48 ≤ b ∧ b ≤ 57)) then
    some (l.foldl (fun acc b => acc * 10 + (b - 48)) 0)
  else
    none

/-- The incoming side of a transport connection, modelled as the list of
chunks the transport will deliver; delivery order is fixed and each
`'data'` event carries one chunk.  An exhausted list is the recorded
end-of-stream. -/
abbrev Conn := List (List Nat)

/-- Source `soRead` on the sequential model: the next chunk, or a
zero-length result at end-of-stream. -/
def soRead : Conn → List Nat × Conn
  | [] => ([], [])
  | c :: rest => (c, rest)

/-- Total bytes the transport still has to deliver. -/
def connBytes (c : Conn) : Nat := (c.map List.length).sum

/-- The body-reading capability (source type `BodyReader`), as a closed
tagged variant: bounded length over the transport
(`readerFromConnLength`, carrying its remaining count) or fully in
memory (`readerFromMemory`). -/
inductive BodyReaderM where
  | connLength (remain : Nat)
  | memory (data : List Nat)
deriving DecidableEq, Repr

/-- The declared length of a body reader (source field
`BodyReader.length`; `-1` would mean unknown, which no constructible
reader produces). -/
def BodyReaderM.lengthI : BodyReaderM → Int
  | .connLength n => n
  | .memory d => d.length

/-- Source `readerFromConnLength`: the bounded-length over-transport
reader; its declared length and its remaining count start at the same
value. -/
def readerFromConnLength (remain : Nat) : BodyReaderM := .connLength remain

/-- Source `readerFromMemory`: the in-memory reader over fixed bytes. -/
def readerFromMemory (data : List Nat) : BodyReaderM := .memory data

/-- Source `readerFromReq`: body-reader selection.  Kept byte-faithful to
the source, including its literal lookup key `'Content-Lengtg'`, its
method comparison against `'Head'`, and its chunked value `'chuncked'`. -/
def readerFromReq (req : HTTPReq) : Except HTTPError BodyReaderM :=
  match (match fieldGet req.headers (strBytes "Content-Lengtg") with
    | none => Except.ok (-1 : Int)
    | some v =>
      match parseDec v with
      | none => Except.error (HTTPError.mk 400 "bad Content-Length")
      | some n => Except.ok (n : Int)) with
  | .error e => .error e
  | .ok bodyLen0 =>
    let bodyAllowed : Bool :=
      !(req.method == strBytes "GET" || req.method == strBytes "Head")
    let chunked : Bool :=
      fieldGet req.headers (strBytes "Transfer-Encoding") == some (strBytes "chuncked")
    if !bodyAllowed && decide (0 < bodyLen0) then
      .error ⟨400, "HTTP body not allowed."⟩
    else
      let bodyLen : Int := if bodyAllowed then bodyLen0 else 0
      if 0 ≤ bodyLen then .ok (readerFromConnLength bodyLen.toNat)
      else if chunked then .error ⟨501, "TODO"⟩
      else .error ⟨501, "TODO"⟩

/-- The mutable state captured by a bounded-length reader's `read`
closure: the remaining count, the shared accumulation buffer and the
transport. -/
structure BodyState where
  remain : Nat
  buf : DynBuf
  conn : Conn
deriving DecidableEq, Repr

/-- One pull of the bounded-length reader (the `read` closure of
`readerFromConnLength`): done at remaining 0; refill from the transport
when the buffer is empty, failing on a zero-length transport read;
consume `min(buffered, remaining)` bytes from the front. -/
def bodyRead (st : BodyState) : Except String (List Nat × BodyState) :=
  if st.remain = 0 then .ok ([], st)
  else if st.buf.length = 0 then
    let data := (soRead st.conn).1
    let conn2 := (soRead st.conn).2
    let buf2 := bufPush st.buf data
    if data.length = 0 then .error "Unexpected EOF from HTTP body"
    else
      let consume := min buf2.length st.remain
      .ok (buf2.data.take consume, ⟨st.remain - consume, bufPop buf2 consume, conn2⟩)
  else
    let consume := min st.buf.length st.remain
    .ok (st.buf.data.take consume, ⟨st.remain - consume, bufPop st.buf consume, st.conn⟩)

/-- Pulling the bounded-length reader repeatedly (at most `fuel` pulls)
until a zero-length result, concatenating the chunks. -/
def drainBody : Nat → BodyState → Except String (List Nat × BodyState)
  | 0, st => .ok ([], st)
  | fuel + 1, st =>
    match bodyRead st with
    | .error e => .error e
    | .ok (data, st2) =>
      if data = [] then .ok ([], st2)
      else
        match drainBody fuel st2 with
        | .error e => .error e
        | .ok (rest, st3) => .ok (data ++ rest, st3)

/-- An HTTP response (source type `HTTPRes`). -/
structure HTTPRes where
  code : Nat
  headers : List (List Nat)
  body : BodyReaderM
deriving DecidableEq, Repr

/-- Source `handleReq`: `/echo` answers with the request's own body
reader, anything else with the in-memory "hello world.\n" body; always
status 200 with the fixed Server field. -/
def handleReq (req : HTTPReq) (body : BodyReaderM) : HTTPRes :=
  let resp : BodyReaderM :=
    if req.uri = strBytes "/echo" then body
    else readerFromMemory (strBytes "hello world.\n")
  { code := 200,
    headers := [strBytes "Server: my_first_http_server"],
    body := resp }

/-- Source `writeHTTPResp`, restricted to its header computation: an
unknown body length is the unimplemented chunked case; otherwise the
computed `Content-Length` field is appended after the handler's fields
(the source asserts the handler set none).  The result is the field-line
list that gets serialized. -/
def writeHTTPResp (resp : HTTPRes) : Except String (List (List Nat)) :=
  if resp.body.lengthI < 0 then .error "TODO: chunked encoding"
  else .ok (resp.headers ++ [strBytes ("Content-Length: " ++ toString resp.body.lengthI)])

/-- Outcome of one iteration of `serveClient`'s awaiting-header state. -/
inductive StepResult where
  | cleanExit
  | protoError (e : HTTPError)
  | gotRequest (req : HTTPReq) (buf2 : DynBuf) (conn2 : Conn)
  | needMore (buf2 : DynBuf) (conn2 : Conn)
deriving DecidableEq, Repr

/-- One iteration of the source `serveClient` loop in the awaiting-header
state: try to frame; on incomplete, read from the transport, push the
result, and classify a zero-length read as clean end (empty buffer) or
400 "Unexpected EOF." (non-empty buffer). -/
def serveStep (buf : DynBuf) (conn : Conn) : StepResult :=
  match cutMessage buf with
  | .error e => .protoError e
  | .ok (some (msg, buf2)) => .gotRequest msg buf2 conn
  | .ok none =>
    let data := (soRead conn).1
    let conn2 := (soRead conn).2
    let buf2 := bufPush buf data
    if data.length = 0 ∧ buf2.length = 0 then .cleanExit
    else if data.length = 0 then .protoError ⟨400, "Unexpected EOF."⟩
    else .needMore buf2 conn2

/-- The per-connection adapter state of source `TCPConn`, abstracted to
what the events touch: whether the single read-continuation slot is
occupied, and the sticky end-of-stream and error flags. -/
structure ConnSt where
  readerPending : Bool
  ended : Bool
  err : Bool
deriving DecidableEq, Repr

/-- The transport delivery events wired up by source `soInit`. -/
inductive DeliverEvent where
  | dataEv
  | endEv
  | errorEv
deriving DecidableEq, Repr

/-- Source `soInit` event handlers: `'data'` fulfills the pending read and
clears the slot; `'end'` records end-of-stream and clears the slot if
occupied; `'error'` records the sticky error and clears the slot if
occupied.  In every case the slot is empty when the handler returns. -/
def deliver (st : ConnSt) : DeliverEvent → ConnSt
  | .dataEv => { st with readerPending := false }
  | .endEv => { st with ended := true, readerPending := false }
  | .errorEv => { st with err := true, readerPending := false }

/-- Source `soRead` on the adapter state: complete immediately on a sticky
error or recorded end-of-stream (storing nothing), else store the
continuation in the slot and resume delivery. -/
def soReadStep (st : ConnSt) : ConnSt :=
  if st.err then st
  else if st.ended then st
  else { st with readerPending := true }

/-- The doubling loop never shrinks the capacity. -/
theorem growCapFuel_ge_self (fuel : Nat) :
    ∀ cap n, cap ≤ growCapFuel fuel cap n := by
  induction fuel with
  | zero => intro cap n; exact Nat.le_refl cap
  | succ f ih =>
    intro cap n
    unfold growCapFuel
    by_cases h : cap < n
    · rw [if_pos h]
      exact Nat.le_trans (by omega) (ih (cap * 2) n)
    · rw [if_neg h]

/-- With enough fuel the doubling loop reaches the requested size. -/
theorem growCapFuel_reaches (fuel : Nat) :
    ∀ cap n, n ≤ 2 ^ fuel * cap → n ≤ growCapFuel fuel cap n := by
  induction fuel with
  | zero => intro cap n h; simpa using h
  | succ f ih =>
    intro cap n h
    unfold growCapFuel
    by_cases hlt : cap < n
    · rw [if_pos hlt]
      refine ih (cap * 2) n ?_
      calc n ≤ 2 ^ (f + 1) * cap := h
        _ = 2 ^ f * (cap * 2) := by ring
    · rw [if_neg hlt]; omega

/-- The chosen capacity fits the requested size (for a positive start). -/
theorem growCap_reaches (cap n : Nat) (h : 1 ≤ cap) : n ≤ growCap cap n := by
  refine growCapFuel_reaches n cap n ?_
  calc n ≤ 2 ^ n := Nat.le_of_lt (Nat.lt_two_pow n)
    _ = 2 ^ n * 1 := by ring
    _ ≤ 2 ^ n * cap := Nat.mul_le_mul_left _ h

/-- The grown region is at least as long as the old one. -/
theorem growData_ge_old (buf : DynBuf) (n : Nat) :
    buf.data.length ≤ (growData buf n).length := by
  unfold growData
  by_cases h : buf.data.length < n
  · rw [if_pos h]; simp
  · rw [if_neg h]

/-- The grown region fits the requested occupied length. -/
theorem growData_ge (buf : DynBuf) (n : Nat) : n ≤ (growData buf n).length := by
  unfold growData
  by_cases h : buf.data.length < n
  · rw [if_pos h]
    simp only [List.length_append, List.length_replicate]
    have h32 : (1 : Nat) ≤ max buf.data.length 32 := by omega
    have hg := growCap_reaches (max buf.data.length 32) n h32
    have hgs := growCapFuel_ge_self n (max buf.data.length 32) n
    unfold growCap at *
    omega
  · rw [if_neg h]; omega

/-- Appending keeps the occupied length equal to old length plus appended
length. -/
theorem bufPush_length (buf : DynBuf) (d : List Nat) :
    (bufPush buf d).length = buf.length + d.length := rfl

/-- Appending preserves the buffer invariant: the occupied length fits in
the backing region. -/
theorem bufPush_wf (buf : DynBuf) (d : List Nat)
    (h : buf.length ≤ buf.data.length) :
    (bufPush buf d).length ≤ (bufPush buf d).data.length := by
  have hfit : buf.length + d.length ≤ (growData buf (buf.length + d.length)).length :=
    growData_ge buf (buf.length + d.length)
  have hold : buf.data.length ≤ (growData buf (buf.length + d.length)).length :=
    growData_ge_old buf (buf.length + d.length)
  simp only [bufPush, writeAt, List.length_append, List.length_take,
    List.length_drop]
  omega

/-- After an append, the occupied region is the old occupied region
followed by the appended bytes. -/
theorem occupied_bufPush (buf : DynBuf) (d : List Nat)
    (h : buf.length ≤ buf.data.length) :
    occupied (bufPush buf d) = occupied buf ++ d := by
  have hfit : buf.length + d.length ≤ (growData buf (buf.length + d.length)).length :=
    growData_ge buf (buf.length + d.length)
  have hold : buf.data.length ≤ (growData buf (buf.length + d.length)).length :=
    growData_ge_old buf (buf.length + d.length)
  have htake : ((growData buf (buf.length + d.length)).take buf.length).length
      = buf.length := by
    rw [List.length_take]; omega
  unfold occupied bufPush writeAt
  simp only
  rw [List.take_left' (by rw [List.length_append, htake])]
  congr 1
  unfold growData
  by_cases hg : buf.data.length < buf.length + d.length
  · rw [if_pos hg, List.take_append_of_le_length h]
  · rw [if_neg hg]

/-- Consuming from the front shrinks the occupied length by exactly the
consumed amount. -/
theorem bufPop_length (b : DynBuf) (n : Nat) :
    (bufPop b n).length = b.length - n := rfl

/-- Consuming from the front does not change the backing region's length. -/
theorem bufPop_data_length (b : DynBuf) (n : Nat) :
    (bufPop b n).data.length = b.data.length := by
  simp only [bufPop, List.length_append, List.length_drop, List.length_take]
  omega

/-- Consuming from the front preserves the buffer invariant. -/
theorem bufPop_wf (b : DynBuf) (n : Nat) (h : b.length ≤ b.data.length) :
    (bufPop b n).length ≤ (bufPop b n).data.length := by
  rw [bufPop_length, bufPop_data_length]; omega

/-- After consuming `n` bytes from the front, the occupied region is the
old occupied region from offset `n` on. -/
theorem occupied_bufPop (b : DynBuf) (n : Nat) (hn : n ≤ b.length)
    (hwf : b.length ≤ b.data.length) :
    occupied (bufPop b n) = (occupied b).drop n := by
  have hseg : ((b.data.take b.length).drop n).length = b.length - n := by
    rw [List.length_drop, List.length_take]; omega
  unfold occupied bufPop
  simp only
  rw [List.take_left' hseg]

/-- A pull with nothing remaining returns the zero-length result at once,
leaving the whole state (buffer and transport included) untouched. -/
theorem bodyRead_zero (st : BodyState) (h : st.remain = 0) :
    bodyRead st = .ok ([], st) := by
  unfold bodyRead; rw [if_pos h]

/-- A pull with data still buffered consumes `min(buffered, remaining)`
bytes from the front without touching the transport. -/
theorem bodyRead_buffered (st : BodyState) (hr : st.remain ≠ 0)
    (hb : st.buf.length ≠ 0) :
    bodyRead st = .ok (st.buf.data.take (min st.buf.length st.remain),
      ⟨st.remain - min st.buf.length st.remain,
       bufPop st.buf (min st.buf.length st.remain), st.conn⟩) := by
  unfold bodyRead; rw [if_neg hr, if_neg hb]

/-- A pull with an empty buffer and a non-empty transport chunk pushes the
chunk and then consumes from the front. -/
theorem bodyRead_refill (st : BodyState) (hr : st.remain ≠ 0)
    (hb : st.buf.length = 0) (hd : (soRead st.conn).1.length ≠ 0) :
    bodyRead st = .ok
      ((bufPush st.buf (soRead st.conn).1).data.take
        (min (bufPush st.buf (soRead st.conn).1).length st.remain),
      ⟨st.remain - min (bufPush st.buf (soRead st.conn).1).length st.remain,
       bufPop (bufPush st.buf (soRead st.conn).1)
        (min (bufPush st.buf (soRead st.conn).1).length st.remain),
       (soRead st.conn).2⟩) := by
  unfold bodyRead
  rw [if_neg hr, if_pos hb]
  simp only
  rw [if_neg hd]

/-- Unfolding one successful, non-final pull inside the drain loop. -/
theorem drainBody_step (f : Nat) (st : BodyState) (data : List Nat)
    (st2 : BodyState) (h : bodyRead st = .ok (data, st2)) (hd : data ≠ []) :
    drainBody (f + 1) st =
      match drainBody f st2 with
      | .error e => .error e
      | .ok (rest, st3) => .ok (data ++ rest, st3) := by
  conv_lhs => rw [drainBody]
  rw [h]
  simp [hd]

/-- Draining a bounded-length reader that still has `remain` bytes to
deliver, when the buffered bytes plus the transport's future bytes cover
`remain` and every future chunk is non-empty: the drain succeeds, the
concatenated output has exactly `remain` bytes, and the final remaining
count is 0.  Fuel `remain + 1` pulls always suffice. -/
theorem drainBody_spec (fuel : Nat) : ∀ st : BodyState,
    st.remain < fuel →
    st.buf.length ≤ st.buf.data.length →
    st.remain ≤ st.buf.length + connBytes st.conn →
    (∀ c ∈ st.conn, c ≠ []) →
    ∃ out st2, drainBody fuel st = .ok (out, st2) ∧
      out.length = st.remain ∧ st2.remain = 0 := by
  induction fuel with
  | zero => intro st h _ _ _; omega
  | succ f ih =>
    intro st hfuel hwf hav hne
    by_cases hr : st.remain = 0
    · refine ⟨[], st, ?_, by simp [hr], hr⟩
      unfold drainBody
      rw [bodyRead_zero st hr]
      simp
    · by_cases hb : st.buf.length = 0
      · cases hc : st.conn with
        | nil =>
          exfalso
          rw [hc] at hav
          simp [connBytes] at hav
          omega
        | cons c rest =>
          have hcne : c ≠ [] := hne c (by rw [hc]; exact List.mem_cons_self c rest)
          have hclen : 0 < c.length := List.length_pos.mpr hcne
          have hsr1 : (soRead st.conn).1 = c := by rw [hc]; rfl
          have hsr2 : (soRead st.conn).2 = rest := by rw [hc]; rfl
          have hd : (soRead st.conn).1.length ≠ 0 := by rw [hsr1]; omega
          have hbr := bodyRead_refill st hr hb hd
          rw [hsr1, hsr2] at hbr
          have hBlen : (bufPush st.buf c).length = st.buf.length + c.length :=
            bufPush_length _ _
          have hBwf : (bufPush st.buf c).length ≤ (bufPush st.buf c).data.length :=
            bufPush_wf _ _ hwf
          have hcons1 : 1 ≤ min (bufPush st.buf c).length st.remain := by
            refine le_min (by omega) (by omega)
          have hconsB : min (bufPush st.buf c).length st.remain ≤ (bufPush st.buf c).length :=
            min_le_left _ _
          have hconsR : min (bufPush st.buf c).length st.remain ≤ st.remain :=
            min_le_right _ _
          have hslice : ((bufPush st.buf c).data.take
              (min (bufPush st.buf c).length st.remain)).length
              = min (bufPush st.buf c).length st.remain :=
            List.length_take_of_le (le_trans hconsB hBwf)
          have hslice_ne : (bufPush st.buf c).data.take
              (min (bufPush st.buf c).length st.remain) ≠ [] := by
            intro hcontra
            rw [← List.length_eq_zero, hslice] at hcontra
            omega
          have hconnB : connBytes st.conn = c.length + connBytes rest := by
            rw [hc]; simp [connBytes]
          obtain ⟨out, st3, heq, hlen, hrem⟩ := ih
            ⟨st.remain - min (bufPush st.buf c).length st.remain,
             bufPop (bufPush st.buf c) (min (bufPush st.buf c).length st.remain),
             rest⟩
            (by simp only; omega)
            (bufPop_wf _ _ hBwf)
            (by simp only [bufPop_length]; omega)
            (fun d hd2 => hne d (by rw [hc]; exact List.mem_cons_of_mem _ hd2))
          refine ⟨(bufPush st.buf c).data.take
              (min (bufPush st.buf c).length st.remain) ++ out, st3, ?_, ?_, hrem⟩
          · rw [drainBody_step f st _ _ hbr hslice_ne, heq]
          · rw [List.length_append, hslice, hlen]
            simp only
            omega
      · have hbr := bodyRead_buffered st hr hb
        have hcons1 : 1 ≤ min st.buf.length st.remain := by
          refine le_min (by omega) (by omega)
        have hconsB : min st.buf.length st.remain ≤ st.buf.length := min_le_left _ _
        have hconsR : min st.buf.length st.remain ≤ st.remain := min_le_right _ _
        have hslice : (st.buf.data.take (min st.buf.length st.remain)).length
            = min st.buf.length st.remain :=
          List.length_take_of_le (le_trans hconsB hwf)
        have hslice_ne : st.buf.data.take (min st.buf.length st.remain) ≠ [] := by
          intro hcontra
          rw [← List.length_eq_zero, hslice] at hcontra
          omega
        obtain ⟨out, st3, heq, hlen, hrem⟩ := ih
          ⟨st.remain - min st.buf.length st.remain,
           bufPop st.buf (min st.buf.length st.remain), st.conn⟩
          (by simp only; omega)
          (bufPop_wf _ _ hwf)
          (by simp only [bufPop_length]; omega)
          hne
        refine ⟨st.buf.data.take (min st.buf.length st.remain) ++ out, st3, ?_, ?_, hrem⟩
        · rw [drainBody_step f st _ _ hbr hslice_ne, heq]
        · rw [List.length_append, hslice, hlen]
          simp only
          omega

/-- A region of identical filler bytes never contains the header
terminator. -/
theorem findTerm_replicate (n : Nat) : findTerm (List.replicate n 97) = none := by
  induction n with
  | zero => rfl
  | succ k ih =>
    rw [List.replicate_succ]
    have hst : startsWithTerm (97 :: List.replicate k 97) = false := by
      simp [startsWithTerm, List.take_succ_cons]
    simp [findTerm, hst, ih]

deriving instance DecidableEq for Except

/-- The request-framing input of the basic scenario:
`"GET / HTTP/1.1\r\nHost: x\r\n\r\n"`. -/
def getSlashInput : List Nat := strBytes "GET / HTTP/1.1\r\nHost: x\r\n\r\n"

/-- The request parsed from `getSlashInput`. -/
def getSlashReq : HTTPReq :=
  ⟨strBytes "GET", strBytes "/", strBytes "HTTP/1.1", [strBytes "Host: x"]⟩

/-- C1: the claim states that a present, parseable `Content-Length` field
makes `readerFromReq` return the bounded-length variant with that count.
The code evaluated at the failing input shows otherwise: the field
`"Content-Length: 5"` is present and its value parses as 5, but the
source looks the field up under the misspelled key `'Content-Lengtg'`,
finds nothing, keeps the length sentinel at -1 and falls through to the
501 "TODO" branch instead of returning the bounded reader. -/
theorem claim1_content_length_misspelled :
    fieldGet [strBytes "Content-Length: 5"] (strBytes "Content-Length")
      = some (strBytes "5") ∧
    parseDec (strBytes "5") = some 5 ∧
    fieldGet [strBytes "Content-Length: 5"] (strBytes "Content-Lengtg") = none ∧
    readerFromReq ⟨strBytes "POST", strBytes "/", strBytes "HTTP/1.1",
      [strBytes "Content-Length: 5"]⟩ = .error ⟨501, "TODO"⟩ := by
  decide

/-- C5: the claim states the no-body verbs GET and HEAD with a declared
non-zero length fail with 400 "body not allowed".  The code evaluated at
the failing inputs: a HEAD request whose declared length the code does
see (via its own `'Content-Lengtg'` key) gets a bounded reader of length
5 with no error, because the source compares the method against `'Head'`
and so treats `'HEAD'` as body-allowed; a HEAD request with a real
`Content-Length` ends in 501.  Only the GET half behaves as claimed. -/
theorem claim5_head_method_eval :
    readerFromReq ⟨strBytes "HEAD", strBytes "/", strBytes "HTTP/1.1",
      [strBytes "Content-Lengtg: 5"]⟩ = .ok (BodyReaderM.connLength 5) ∧
    readerFromReq ⟨strBytes "HEAD", strBytes "/", strBytes "HTTP/1.1",
      [strBytes "Content-Length: 5"]⟩ = .error ⟨501, "TODO"⟩ ∧
    readerFromReq ⟨strBytes "GET", strBytes "/", strBytes "HTTP/1.1",
      [strBytes "Content-Lengtg: 5"]⟩ = .error ⟨400, "HTTP body not allowed."⟩ := by
  decide

/-- C8: the basic scenario.  Framing the input
`"GET / HTTP/1.1\r\nHost: x\r\n\r\n"` yields the GET request for `/`
with the single Host field and an emptied buffer; `readerFromReq` gives
the bounded reader with declared length 0 (empty body); the handler's
default response is status 200 with the in-memory body
`"hello world.\n"` of declared length 13; the handler set no
`Content-Length` field, and `writeHTTPResp` appends the injected
`Content-Length: 13` after the handler's fields. -/
theorem claim8_scenario :
    cutMessage ⟨getSlashInput, 27⟩ = .ok (some (getSlashReq, ⟨getSlashInput, 0⟩)) ∧
    readerFromReq getSlashReq = .ok (BodyReaderM.connLength 0) ∧
    handleReq getSlashReq (BodyReaderM.connLength 0) =
      ⟨200, [strBytes "Server: my_first_http_server"],
       BodyReaderM.memory (strBytes "hello world.\n")⟩ ∧
    (BodyReaderM.memory (strBytes "hello world.\n")).lengthI = 13 ∧
    fieldGet [strBytes "Server: my_first_http_server"] (strBytes "Content-Length")
      = none ∧
    writeHTTPResp ⟨200, [strBytes "Server: my_first_http_server"],
       BodyReaderM.memory (strBytes "hello world.\n")⟩ =
      .ok [strBytes "Server: my_first_http_server", strBytes "Content-Length: 13"] := by
  decide

/-- C2: for the bounded-length body reader with declared length `L`
(remaining count `L`), when the buffered bytes plus the transport's
future bytes cover `L` and each delivered chunk is non-empty, pulling
repeatedly until a zero-length result (at most `L + 1` pulls) succeeds
and yields total bytes exactly `L` with the remaining count at 0; and
every pull made once the remaining count is 0 returns the zero-length
result immediately with the whole state — transport included —
untouched, so no transport read is issued. -/
theorem claim2_bounded_reader_total (L : Nat) (buf : DynBuf) (conn : Conn)
    (hwf : buf.length ≤ buf.data.length)
    (hav : L ≤ buf.length + connBytes conn)
    (hne : ∀ c ∈ conn, c ≠ []) :
    (∃ out st2, drainBody (L + 1) ⟨L, buf, conn⟩ = .ok (out, st2) ∧
      out.length = L ∧ st2.remain = 0) ∧
    (∀ st : BodyState, st.remain = 0 → bodyRead st = .ok ([], st)) :=
  ⟨drainBody_spec (L + 1) ⟨L, buf, conn⟩ (Nat.lt_succ_self L) hwf hav hne,
   fun st h => bodyRead_zero st h⟩

/-- Witness for C2 at the spec's own scenario: declared length 5 with the
chunks "he" then "llo". -/
theorem claim2_bounded_reader_total_witness :
    ∃ out st2,
      drainBody 6 ⟨5, ⟨[], 0⟩, [[104, 101], [108, 108, 111]]⟩ = .ok (out, st2) ∧
      out.length = 5 ∧ st2.remain = 0 :=
  (claim2_bounded_reader_total 5 ⟨[], 0⟩ [[104, 101], [108, 108, 111]]
    (by decide) (by decide) (by decide)).1

/-- On a terminator-free occupied region, `cutMessage` is exactly the
threshold test of the source: 413 at or above `kMaxHeaderLen`, incomplete
below it. -/
theorem cutMessage_no_term (buf : DynBuf)
    (hterm : findTerm (buf.data.take buf.length) = none) :
    cutMessage buf = if kMaxHeaderLen ≤ buf.length
      then .error ⟨413, "header is too large"⟩ else .ok none := by
  unfold cutMessage
  rw [hterm]

/-- C3 (amended): for a buffer whose occupied region contains no header
terminator, `cutMessage` signals incomplete exactly when the occupied
length is strictly below `kMaxHeaderLen`, and fails with the 413
"header is too large" condition exactly when the occupied length reaches
or exceeds `kMaxHeaderLen` (the source tests `>=`, so the boundary value
8192 itself already throws). -/
theorem claim3_threshold_amended (buf : DynBuf)
    (hterm : findTerm (buf.data.take buf.length) = none) :
    (buf.length < kMaxHeaderLen → cutMessage buf = .ok none) ∧
    (kMaxHeaderLen ≤ buf.length →
      cutMessage buf = .error ⟨413, "header is too large"⟩) := by
  constructor <;> intro h
  · rw [cutMessage_no_term buf hterm, if_neg (by omega)]
  · rw [cutMessage_no_term buf hterm, if_pos h]

/-- Witness for C3's amended theorem at a one-byte terminator-free
buffer. -/
theorem claim3_threshold_amended_witness :
    cutMessage ⟨[97], 1⟩ = .ok none :=
  (claim3_threshold_amended ⟨[97], 1⟩ (by decide)).1 (by decide)

/-- C3 counterexample to the claim as stated: a buffer of occupied length
exactly 8192 (the maximum, hence "not yet exceeded") with no terminator
in its occupied region does not make `cutMessage` signal incomplete —
it throws the 413 condition, because the source tests
`buf.length >= kMaxHeaderLen`. -/
theorem claim3_exact_max_counterexample :
    findTerm ((List.replicate 8192 97).take 8192) = none ∧
    (8192 : Nat) ≤ kMaxHeaderLen ∧
    cutMessage ⟨List.replicate 8192 97, 8192⟩ ≠ .ok none := by
  have htake : (List.replicate 8192 97).take 8192 = List.replicate 8192 97 := by
    rw [List.take_replicate, Nat.min_self]
  have hft : findTerm ((List.replicate 8192 97).take 8192) = none := by
    rw [htake]; exact findTerm_replicate 8192
  refine ⟨hft, by norm_num [kMaxHeaderLen], ?_⟩
  have herr := cutMessage_no_term ⟨List.replicate 8192 97, 8192⟩ hft
  rw [herr, if_pos (by norm_num [kMaxHeaderLen])]
  intro hcontra
  exact Except.noConfusion hcontra

/-- C4: in the awaiting-header state, when framing is incomplete and the
transport read returns a zero-length result, an empty accumulation
buffer is the clean end of the connection, and a non-empty buffer is the
400 "Unexpected EOF." protocol violation — never a clean exit. -/
theorem claim4_awaiting_header_eof (buf : DynBuf) (conn : Conn)
    (hinc : cutMessage buf = .ok none) (heof : (soRead conn).1 = []) :
    (buf.length = 0 → serveStep buf conn = .cleanExit) ∧
    (buf.length ≠ 0 → serveStep buf conn = .protoError ⟨400, "Unexpected EOF."⟩) := by
  constructor <;> intro h
  · simp only [serveStep, hinc, heof, List.length_nil]
    rw [if_pos ⟨trivial, by rw [bufPush_length]; simp [h]⟩]
  · simp only [serveStep, hinc, heof, List.length_nil]
    rw [if_neg (by simp only [bufPush_length, List.length_nil, true_and]; omega),
      if_pos trivial]

/-- Witness for C4 at the empty buffer and exhausted transport: the loop
exits cleanly. -/
theorem claim4_awaiting_header_eof_witness :
    serveStep ⟨[], 0⟩ [] = StepResult.cleanExit :=
  (claim4_awaiting_header_eof ⟨[], 0⟩ [] (by decide) rfl).1 rfl

/-- C6: a pull of the bounded-length reader with a positive remaining
count and an empty buffer whose single transport read returns a
zero-length result fails with the "Unexpected EOF from HTTP body" error
instead of returning the zero-length result as end-of-body. -/
theorem claim6_mid_body_eof (st : BodyState) (h1 : 0 < st.remain)
    (h2 : st.buf.length = 0) (h3 : (soRead st.conn).1 = []) :
    bodyRead st = .error "Unexpected EOF from HTTP body" := by
  unfold bodyRead
  rw [if_neg (by omega), if_pos h2]
  simp only
  rw [if_pos (by rw [h3]; rfl)]

/-- Witness for C6: three bytes still expected, empty buffer, exhausted
transport. -/
theorem claim6_mid_body_eof_witness :
    bodyRead ⟨3, ⟨[], 0⟩, []⟩ = .error "Unexpected EOF from HTTP body" :=
  claim6_mid_body_eof ⟨3, ⟨[], 0⟩, []⟩ (by decide) rfl rfl

/-- C7: on a well-formed buffer, appending `x` and then consuming `n`
bytes from the front (with `n` at most the post-append occupied length)
leaves the occupied length smaller by exactly `n` than its post-append
value, and the remaining occupied bytes are the post-append occupied
bytes from offset `n` on, left-aligned at offset 0 (the occupied region
is by definition read from offset 0).  The first conjunct records that
the post-append occupied region is the old one followed by `x`. -/
theorem claim7_append_consume (buf : DynBuf) (x : List Nat) (n : Nat)
    (hwf : buf.length ≤ buf.data.length)
    (hn : n ≤ (bufPush buf x).length) :
    occupied (bufPush buf x) = occupied buf ++ x ∧
    (bufPop (bufPush buf x) n).length = (bufPush buf x).length - n ∧
    occupied (bufPop (bufPush buf x) n) = (occupied (bufPush buf x)).drop n :=
  ⟨occupied_bufPush buf x hwf, bufPop_length _ n,
   occupied_bufPop _ n hn (bufPush_wf buf x hwf)⟩

/-- Witness for C7: occupied `[1, 2]`, append `[5, 6]`, consume 3. -/
theorem claim7_append_consume_witness :
    occupied (bufPush ⟨[1, 2, 3, 4], 2⟩ [5, 6]) = occupied ⟨[1, 2, 3, 4], 2⟩ ++ [5, 6] ∧
    (bufPop (bufPush ⟨[1, 2, 3, 4], 2⟩ [5, 6]) 3).length
      = (bufPush ⟨[1, 2, 3, 4], 2⟩ [5, 6]).length - 3 ∧
    occupied (bufPop (bufPush ⟨[1, 2, 3, 4], 2⟩ [5, 6]) 3)
      = (occupied (bufPush ⟨[1, 2, 3, 4], 2⟩ [5, 6])).drop 3 :=
  claim7_append_consume ⟨[1, 2, 3, 4], 2⟩ [5, 6] 3 (by decide) (by decide)

/-- C9: the adapter's continuation slot is a single `Option`-typed cell,
so it never holds more than one pending read; every transport delivery
event (`'data'`, `'end'`, `'error'`) leaves the slot empty on return,
and `soRead` called under its no-concurrent-reads precondition stores a
continuation exactly when neither the sticky error nor end-of-stream is
recorded (otherwise it completes immediately, storing nothing). -/
theorem claim9_single_pending_read :
    (∀ (st : ConnSt) (e : DeliverEvent), (deliver st e).readerPending = false) ∧
    (∀ st : ConnSt, st.readerPending = false →
      ((soReadStep st).readerPending = true ↔ st.err = false ∧ st.ended = false)) := by
  constructor
  · intro st e
    cases e <;> rfl
  · intro st h
    obtain ⟨rp, en, er⟩ := st
    simp only at h
    subst h
    cases er <;> cases en <;> simp [soReadStep]

/-- Witness for C9 at the fresh adapter state: `soRead` stores the
continuation. -/
theorem claim9_single_pending_read_witness :
    (soReadStep ⟨false, false, false⟩).readerPending = true :=
  (claim9_single_pending_read.2 ⟨false, false, false⟩ rfl).mpr ⟨rfl, rfl⟩

/-- C10: for every request whose target bytes are `"/echo"`, the handler
returns status 200 with the request's own body reader as the response
body, so the response body bytes are exactly the request body bytes. -/
theorem claim10_echo (req : HTTPReq) (body : BodyReaderM)
    (h : req.uri = strBytes "/echo") :
    handleReq req body = ⟨200, [strBytes "Server: my_first_http_server"], body⟩ := by
  unfold handleReq
  rw [if_pos h]

/-- Witness for C10 at a concrete `/echo` request carrying a bounded
reader of length 3. -/
theorem claim10_echo_witness :
    handleReq ⟨strBytes "GET", strBytes "/echo", strBytes "HTTP/1.1", []⟩
      (BodyReaderM.connLength 3)
    = ⟨200, [strBytes "Server: my_first_http_server"], BodyReaderM.connLength 3⟩ :=
  claim10_echo ⟨strBytes "GET", strBytes "/echo", strBytes "HTTP/1.1", []⟩
    (BodyReaderM.connLength 3) rfl
